import Mathlib

/-!
Verification of the Bits_of_Time electronic sandglass firmware
(`Bits_of_Time.cpp`, `dot_matrix.cpp`, `dot_matrix.h`).

The development shallowly embeds the pixel framebuffer (`DotMatrix`),
the gravity-aware coordinate transform, the pseudo random generator,
and the grain simulation engine as executable Lean functions, and
proves the specified properties about them.

Machine integers are modelled as `Nat` with explicit `% 2 ^ w`
reductions exactly where the C code truncates (`uint8_t` growth of the
rest counter, `uint8_t` shift in the LFSR, `uint16_t` timer
subtraction).  In this firmware build `ENABLE_HIDDEN_SCREEN` is not
defined, so `scr_vis` and `scr_hid` both denote the single physical
screen; pixel reads and writes are therefore modelled on one screen,
while the pointer juggling of `swapScreen` is modelled separately on
an abstract two-buffer state.
-/

/-- One pixel column of 8 bi-colored pixels: two 16-bit bit planes
(`pixcol_t` with fields `lsb` and `msb`). -/
structure PixCol where
  lsb : Nat
  msb : Nat
deriving Repr, DecidableEq

/-- The screen is an array of pixel columns, indexed by column number.
Only indices `0..15` (`NUM_PIXCOLS = 16`) are ever addressed. -/
def Screen : Type := Nat → PixCol

/-- Table `pixcol_mask[8]` from `dot_matrix.cpp`: the green-led bit of
row `i` within a 16-bit plane. -/
def pixcolMask : Nat → Nat
  | 0 => 0x0001
  | 1 => 0x0004
  | 2 => 0x0010
  | 3 => 0x0040
  | 4 => 0x0100
  | 5 => 0x0400
  | 6 => 0x1000
  | 7 => 0x4000
  | _ => 0

/-- The screen with all pixel columns zeroed, the result of
`DotMatrix::clearScreen`. -/
def clearScreen : Screen := fun _ => ⟨0, 0⟩

/-- `DotMatrix::setPixel(x, y, color)`: write one pixel of the working
screen.  Out-of-range coordinates (`x ≥ DIM_X = 16` or
`y ≥ DIM_Y = 8`) are a no-op.  The C complement `~(mask_red |
mask_green)` acts on 16-bit words and is embedded as
`65535 ^^^ (mr ||| mg)`. -/
def dmSetPixel (scr : Screen) (x y color : Nat) : Screen :=
  let mg := pixcolMask (y % 8)
  let mr := mg <<< 1
  if 16 ≤ x then scr
  else if 8 ≤ y then scr
  else
    let idx := x + (y / 8) * 16
    let pm0 := (scr idx).msb &&& (65535 ^^^ (mr ||| mg))
    let pm1 := if color &&& 0b0010 ≠ 0 then pm0 ||| mg else pm0
    let pm2 := if color &&& 0b1000 ≠ 0 then pm1 ||| mr else pm1
    let pl0 := (scr idx).lsb &&& (65535 ^^^ (mr ||| mg))
    let pl1 := if color &&& 0b0001 ≠ 0 then pl0 ||| mg else pl0
    let pl2 := if color &&& 0b0100 ≠ 0 then pl1 ||| mr else pl1
    fun i => if i = idx then ⟨pl2, pm2⟩ else scr i

/-- `DotMatrix::getPixel(x, y, vis_hid)`: return the 4-bit color of a
pixel, `255` for out-of-range coordinates, and `255` for a buffer
selector other than `VISIBLE = 0` or `HIDDEN = 1`.  In this build
there is no hidden screen, so both valid selectors read the same
screen. -/
def dmGetPixel (scr : Screen) (x y vis_hid : Nat) : Nat :=
  let mg := pixcolMask (y % 8)
  let mr := mg <<< 1
  if 16 ≤ x then 255
  else if 8 ≤ y then 255
  else
    let idx := x + (y / 8) * 16
    let col :=
      (if (scr idx).msb &&& mr ≠ 0 then 0b1000 else 0) |||
      (if (scr idx).msb &&& mg ≠ 0 then 0b0010 else 0) |||
      (if (scr idx).lsb &&& mr ≠ 0 then 0b0100 else 0) |||
      (if (scr idx).lsb &&& mg ≠ 0 then 0b0001 else 0)
    if vis_hid = 0 then col
    else if vis_hid = 1 then col
    else 255

/-- Core of `DotMatrix::update`: the 16-bit word shifted out for a
pixel column, as a pure function of the two planes and the sub-frame
counter `bright_cnt` (range 0..3). -/
def emittedWord (msb lsb bright_cnt : Nat) : Nat :=
  if bright_cnt &&& 1 ≠ 0 then msb &&& lsb
  else if bright_cnt = 0 then msb ||| lsb
  else msb

/-- Abstract state of the double-buffer pointers of `DotMatrix`:
two physical buffers indexed by `Bool`, and the three pointers
`scr_vis`, `scr_hid`, `scr_wrk` of `dot_matrix.h` each naming one
physical buffer.  (In this firmware build `ENABLE_HIDDEN_SCREEN` is
off and `init` sets all three pointers to the same buffer; the model
also covers the two-buffer configuration the pointer code is written
for.) -/
structure DMBufState where
  bufs : Bool → Screen
  vis : Bool
  hid : Bool
  wrk : Bool

/-- `DotMatrix::swapScreen()`: exchange the visible and hidden screen
pointers, then retarget the working pointer: if it now equals the new
visible pointer it is set to the new hidden pointer, otherwise to the
new visible pointer.  Pixel data is not touched. -/
def swapScreen (s : DMBufState) : DMBufState :=
  let vis := s.hid
  let hid := s.vis
  let wrk := if s.wrk = vis then hid else vis
  ⟨s.bufs, vis, hid, wrk⟩

/-- Gravity-aware coordinate transform shared by `get_pixel` and
`set_pixel` in `Bits_of_Time.cpp`: if `gravity = UP = 1` flip both
axes, then if `bulb XOR gravity` is nonzero shift `x` by 8 to the
other panel.  Input coordinates are bulb-local (`0..7`). -/
def orient (gravity x y bulb : Nat) : Nat × Nat :=
  let x1 := if gravity = 1 then 7 - x else x
  let y1 := if gravity = 1 then 7 - y else y
  if bulb ^^^ gravity ≠ 0 then (x1 + 8, y1) else (x1, y1)

/-- `get_pixel(x, y, bulb)` of `Bits_of_Time.cpp`: returns 255 when a
coordinate exceeds 7, else reads the visible screen through the
orientation transform. -/
def get_pixel (gravity : Nat) (scr : Screen) (x y bulb : Nat) : Nat :=
  if 7 < x ∨ 7 < y then 255
  else dmGetPixel scr (orient gravity x y bulb).1 (orient gravity x y bulb).2 0

/-- `set_pixel(x, y, bulb, color)` of `Bits_of_Time.cpp`: no-op when a
coordinate exceeds 7, else writes through the orientation
transform. -/
def set_pixel (gravity : Nat) (scr : Screen) (x y bulb color : Nat) : Screen :=
  if 7 < x ∨ 7 < y then scr
  else dmSetPixel scr (orient gravity x y bulb).1 (orient gravity x y bulb).2 color

/-- `move_grain(x1, y1, x2, y2, bulb)`: if the target cell reads
`BLACK = 0` the grain moves there (old cell blackened, new cell set to
`ORANGE = 15`) and 1 is returned, else nothing happens and 0 is
returned.  The returned Bool stands for the C `uint8_t` 1/0. -/
def move_grain (gravity : Nat) (scr : Screen) (x1 y1 x2 y2 bulb : Nat) :
    Screen × Bool :=
  if get_pixel gravity scr x2 y2 bulb = 0 then
    (set_pixel gravity (set_pixel gravity scr x1 y1 bulb 0) x2 y2 bulb 15, true)
  else (scr, false)

/-- State owned by `simulate_grain`: the screen it mutates plus its
two static locals `side` (fallback-order flag) and `static_counter`
(the rest counter, a `uint8_t`). -/
structure SimState where
  scr : Screen
  side : Nat
  counter : Nat

/-- `simulate_grain(x, y, bulb)` of `Bits_of_Time.cpp`.  Coordinates
are masked into one bulb (`& 7`).  An empty cell increments the rest
counter; otherwise the grain first tries the diagonal move, then the
two axis-aligned moves in the order selected by `side` (which is
toggled whenever that stage is reached), and if nothing moved it is
recolored `YELLOW = 7`; a settled grain bumps the counter only in the
`LOWER = 1` bulb and resets it in the upper bulb.  Returns the new
state together with the C return value (always the updated counter,
truncated to `uint8_t`). -/
def simulate_grain (gravity : Nat) (s : SimState) (x0 y0 bulb : Nat) :
    SimState × Nat :=
  let x := x0 &&& 7
  let y := y0 &&& 7
  if get_pixel gravity s.scr x y bulb = 0 then
    let c := (s.counter + 1) % 256
    (⟨s.scr, s.side, c⟩, c)
  else
    let r1 := move_grain gravity s.scr x y (x + 1) (y + 1) bulb
    if r1.2 then (⟨r1.1, s.side, 0⟩, 0)
    else if s.side ≠ 0 then
      let side := s.side ^^^ 1
      let r2 := move_grain gravity r1.1 x y (x + 1) y bulb
      if r2.2 then (⟨r2.1, side, 0⟩, 0)
      else
        let r3 := move_grain gravity r2.1 x y x (y + 1) bulb
        if r3.2 then (⟨r3.1, side, 0⟩, 0)
        else
          let c := if bulb = 1 then (s.counter + 1) % 256 else 0
          (⟨set_pixel gravity r3.1 x y bulb 7, side, c⟩, c)
    else
      let side := s.side ^^^ 1
      let r2 := move_grain gravity r1.1 x y x (y + 1) bulb
      if r2.2 then (⟨r2.1, side, 0⟩, 0)
      else
        let r3 := move_grain gravity r2.1 x y (x + 1) y bulb
        if r3.2 then (⟨r3.1, side, 0⟩, 0)
        else
          let c := if bulb = 1 then (s.counter + 1) % 256 else 0
          (⟨set_pixel gravity r3.1 x y bulb 7, side, c⟩, c)

/-- `drop()` of `Bits_of_Time.cpp`: move one grain from the upper
bulb exit cell `(7,7,UPPER)` to the lower bulb entry cell
`(0,0,LOWER)` when the exit holds a grain and the entry is empty. -/
def drop (gravity : Nat) (scr : Screen) : Screen :=
  if get_pixel gravity scr 7 7 0 = 0 then scr
  else if get_pixel gravity scr 0 0 1 = 0 then
    set_pixel gravity (set_pixel gravity scr 7 7 0 0) 0 0 1 15
  else scr

/-- `fill_bulb(bulb)` of `Bits_of_Time.cpp`: color every cell of the
bulb with `(x + y) > 3` in `YELLOW = 7` (54 cells). -/
def fill_bulb (gravity : Nat) (scr : Screen) (bulb : Nat) : Screen :=
  (List.range 8).foldl
    (fun sy y =>
      (List.range 8).foldl
        (fun sx x => if 3 < x + y then set_pixel gravity sx x y bulb 7 else sx)
        sy)
    scr

/-- One advance of the LFSR in `random()` of `Bits_of_Time.cpp`:
`rnd <<= 1` truncated to `uint8_t`, xored with
`(POLYNOMIAL << 1) | 1 = 0x1D` when the former MSB was set. -/
def lfsrStep (rnd : Nat) : Nat :=
  if rnd &&& 0x80 ≠ 0 then ((rnd <<< 1) % 256) ^^^ 0x1D
  else (rnd <<< 1) % 256

/-- `random(seed)`: with a nonzero argument the state is reseeded
first; the generator then advances and the new state is returned. -/
def random (rnd seed : Nat) : Nat :=
  lfsrStep (if seed ≠ 0 then seed else rnd)

/-- Tail-recursive `k`-fold application of `lfsrStep`, used for the
exhaustive generator checks. -/
def lfsrIter : Nat → Nat → Nat
  | 0, s => s
  | k + 1, s => lfsrIter k (lfsrStep s)

/-- Exhaustive check over all 8-bit seeds: every nonzero state returns
to itself after 255 steps, does not return after 85, 51 or 15 steps
(the maximal proper divisors of 255), and one step keeps the state
nonzero and 8-bit. -/
def lfsrCheck : Bool :=
  (List.range 256).all fun S =>
    if S = 0 then true
    else (lfsrIter 255 S == S) && (!(lfsrIter 85 S == S)) &&
      (!(lfsrIter 51 S == S)) && (!(lfsrIter 15 S == S)) &&
      (!(lfsrStep S == 0)) && (lfsrStep S < 256)

/-- Output number `k ≥ 1` produced after reseeding with `S`: the value
returned by the reseeding call `random(S)` is output 1, and each
further `random(0)` call yields the next output. -/
def outSeq (S k : Nat) : Nat := lfsrStep^[k] S

/-- The RUN-mode simulation branch of `main`: feed the next random
number `r` to `simulate_grain` (`bit0` = bulb, `bits1..3` = x,
`bits4..6` = y) and report whether the `255 == simulate_grain(...)`
test fires, i.e. whether `mode` becomes `ALARM` on this tick. -/
def mainSimStep (gravity : Nat) (s : SimState) (r : Nat) : SimState × Bool :=
  let res := simulate_grain gravity s (r >>> 1) (r >>> 4) (r &&& 1)
  (res.1, res.2 == 255)

/-- State of the timed-transfer logic in `main`: the time of the last
drop attempt and the screen.  Times are modelled as the unbounded real
tick count; the `uint16_t` subtraction `timer - last_drop` of the C
code is `(t - lastd) % 65536` for the monotone tick sequences a run
produces. -/
structure DropState where
  lastd : Nat
  scr : Screen

/-- The drop branch of `main`'s RUN mode at a tick with timer value
`t`: when at least `drop_cycle` ticks (mod 2^16) have elapsed since
the last attempt, record the attempt time and call `drop()`. -/
def dropTick (gravity drop_cycle t : Nat) (s : DropState) : DropState :=
  if drop_cycle ≤ (t - s.lastd) % 65536 then ⟨t, drop gravity s.scr⟩ else s

/-- A sequence of RUN-mode iterations observed at the given timer
values. -/
def runDrops (gravity drop_cycle : Nat) (ts : List Nat) (s : DropState) :
    DropState :=
  ts.foldl (fun st t => dropTick gravity drop_cycle t st) s

/-- A grain transfer fires at timer value `t` from state `s`: the
drop-cycle guard holds, the exit cell holds a grain and the entry cell
is empty. -/
def transferOccurs (gravity drop_cycle t : Nat) (s : DropState) : Prop :=
  drop_cycle ≤ (t - s.lastd) % 65536 ∧
  get_pixel gravity s.scr 7 7 0 ≠ 0 ∧
  get_pixel gravity s.scr 0 0 1 = 0

/-- The grid of physical pixel coordinates, `16 × 8`. -/
def gridPts : Finset (Nat × Nat) := Finset.range 16 ×ˢ Finset.range 8

/-- Color of the visible-screen pixel at a physical coordinate
pair. -/
def colorAt (scr : Screen) (p : Nat × Nat) : Nat := dmGetPixel scr p.1 p.2 0

/-- Number of grains on screen: the count of non-black pixels. -/
def grainCount (scr : Screen) : Nat :=
  ∑ p ∈ gridPts, if colorAt scr p = 0 then 0 else 1

/-- One simulation action of the RUN-mode loop: either the timed
`drop()` call or a `simulate_grain` call on the cell selected by the
random byte `r`, exactly as `main` issues them. -/
inductive SandAct where
  | dropA : SandAct
  | simA : Nat → SandAct
deriving Repr, DecidableEq

/-- Apply one simulation action to the screen-carrying state. -/
def sandTick (gravity : Nat) (s : SimState) (a : SandAct) : SimState :=
  match a with
  | .dropA => ⟨drop gravity s.scr, s.side, s.counter⟩
  | .simA r => (simulate_grain gravity s (r >>> 1) (r >>> 4) (r &&& 1)).1

/-- Try a list of move targets in order; the first empty target
receives the grain.  Helper for the specification-level description
of the relaxation step ("apply, in order, until one succeeds"). -/
def tryTargets (gravity : Nat) (scr : Screen) (x y : Nat)
    (targets : List (Nat × Nat)) (bulb : Nat) : Option Screen :=
  match targets with
  | [] => none
  | t :: rest =>
    let r := move_grain gravity scr x y t.1 t.2 bulb
    if r.2 then some r.1 else tryTargets gravity r.1 x y rest bulb

/-- The relaxation step as the specification describes it, amended at
one point: mask the cell into `[0,8)`; an empty cell counts a rest
tick; else try the diagonal target, then the two axis-aligned targets
in the order given by the toggling flag, the flag alternating on every
call that reaches the axis-aligned fallback stage; if no move
succeeds the grain settles in place, counting a rest tick only in the
lower bulb. -/
def simGrainSpec (gravity : Nat) (s : SimState) (x0 y0 bulb : Nat) :
    SimState × Nat :=
  let x := x0 % 8
  let y := y0 % 8
  if get_pixel gravity s.scr x y bulb = 0 then
    let c := (s.counter + 1) % 256
    (⟨s.scr, s.side, c⟩, c)
  else
    match tryTargets gravity s.scr x y [(x + 1, y + 1)] bulb with
    | some scr2 => (⟨scr2, s.side, 0⟩, 0)
    | none =>
      let order := if s.side ≠ 0 then [(x + 1, y), (x, y + 1)]
        else [(x, y + 1), (x + 1, y)]
      match tryTargets gravity s.scr x y order bulb with
      | some scr2 => (⟨scr2, s.side ^^^ 1, 0⟩, 0)
      | none =>
        let c := if bulb = 1 then (s.counter + 1) % 256 else 0
        (⟨set_pixel gravity s.scr x y bulb 7, s.side ^^^ 1, c⟩, c)

/-- The relaxation step exactly as claim C2 words it: identical rule
order, but with the preferred fallback order alternating on every
call of the step, i.e. the flag toggles even on calls that stop at
the empty-cell or diagonal-move rule. -/
def simGrainClaim (gravity : Nat) (s : SimState) (x0 y0 bulb : Nat) :
    SimState × Nat :=
  let x := x0 % 8
  let y := y0 % 8
  let side := s.side ^^^ 1
  if get_pixel gravity s.scr x y bulb = 0 then
    let c := (s.counter + 1) % 256
    (⟨s.scr, side, c⟩, c)
  else
    match tryTargets gravity s.scr x y [(x + 1, y + 1)] bulb with
    | some scr2 => (⟨scr2, side, 0⟩, 0)
    | none =>
      let order := if s.side ≠ 0 then [(x + 1, y), (x, y + 1)]
        else [(x, y + 1), (x + 1, y)]
      match tryTargets gravity s.scr x y order bulb with
      | some scr2 => (⟨scr2, side, 0⟩, 0)
      | none =>
        let c := if bulb = 1 then (s.counter + 1) % 256 else 0
        (⟨set_pixel gravity s.scr x y bulb 7, side, c⟩, c)

/-- One full RUN-mode iteration of `main`: the timed-drop branch
followed by the random relaxation step, at timer value `t` with random
byte `r`.  The state is the simulator state paired with `last_drop`. -/
def runIter (gravity drop_cycle : Nat) (st : SimState × Nat) (tr : Nat × Nat) :
    SimState × Nat :=
  let s := st.1
  let last := st.2
  let s1 := if drop_cycle ≤ (tr.1 - last) % 65536 then
    (⟨drop gravity s.scr, s.side, s.counter⟩, tr.1) else (s, last)
  ((simulate_grain gravity s1.1 (tr.2 >>> 1) (tr.2 >>> 4) (tr.2 &&& 1)).1,
    s1.2)

/-- Whether the drop branch of a RUN iteration at timer value `t`
transfers a grain: the guard passes, the exit cell holds a grain and
the entry cell is empty. -/
def xferAt (gravity drop_cycle : Nat) (st : SimState × Nat) (t : Nat) : Bool :=
  decide (drop_cycle ≤ (t - st.2) % 65536) &&
  (!(get_pixel gravity st.1.scr 7 7 0 == 0)) &&
  (get_pixel gravity st.1.scr 0 0 1 == 0)

/-- Inverse of the orientation transform for gravity values 0 and 1:
recover `(bulb, x, y)` from a physical coordinate pair. -/
def orientInv (g : Nat) (p : Nat × Nat) : Nat × Nat × Nat :=
  let b := if 8 ≤ p.1 then (if g = 1 then 0 else 1) else g
  let x1 := p.1 % 8
  (b, if g = 1 then 7 - x1 else x1, if g = 1 then 7 - p.2 else p.2)

/-- Exhaustive check that `orientInv` inverts `orient` on the logical
grid and that `orient` inverts `orientInv` on the physical grid, with
all outputs in range. -/
def orientCheck (g : Nat) : Bool :=
  ((List.range 2).all fun b => (List.range 8).all fun x =>
    (List.range 8).all fun y =>
      decide ((orient g x y b).1 < 16) && decide ((orient g x y b).2 < 8) &&
      (orientInv g (orient g x y b) == (b, x, y))) &&
  ((List.range 16).all fun px => (List.range 8).all fun py =>
    decide ((orientInv g (px, py)).1 < 2) &&
    decide ((orientInv g (px, py)).2.1 < 8) &&
    decide ((orientInv g (px, py)).2.2 < 8) &&
    (orient g (orientInv g (px, py)).2.1 (orientInv g (px, py)).2.2
      (orientInv g (px, py)).1 == (px, py)))

/-- Exhaustive check of the initialized screen: an upper-bulb cell
holds a grain exactly when `x + y > 3`, and the lower bulb is
empty. -/
def fillCheck (g : Nat) : Bool :=
  (List.range 8).all fun x => (List.range 8).all fun y =>
    (decide (get_pixel g (fill_bulb g clearScreen 0) x y 0 ≠ 0) ==
      decide (3 < x + y)) &&
    (get_pixel g (fill_bulb g clearScreen 0) x y 1 == 0)

/-! ## Bit-level helper lemmas -/

lemma and_pow_ne (v k : Nat) : (v &&& 2 ^ k ≠ 0) ↔ v.testBit k := by
  rw [Nat.and_two_pow]
  rcases h : v.testBit k
  · simp
  · simp [(Nat.two_pow_pos k).ne']

lemma testBit_65535 (t : Nat) : Nat.testBit 65535 t = decide (t < 16) := by
  rw [show (65535 : Nat) = 2 ^ 16 - 1 from rfl, Nat.testBit_two_pow_sub_one]

lemma pixcolMask_eq (y : Nat) (hy : y < 8) : pixcolMask y = 2 ^ (2 * y) := by
  interval_cases y <;> rfl

lemma shiftLeft_one_pow (k : Nat) : (2 ^ k) <<< 1 = 2 ^ (k + 1) := by
  rw [Nat.shiftLeft_eq, Nat.pow_one, ← Nat.pow_succ]

/-- Effect on bit `t` of clearing bits `a` and `a+1` of a 16-bit word
`M` and then or-ing in bit `a` when `gb` holds and bit `a+1` when `rb`
holds — the common shape of the two plane updates in
`DotMatrix::setPixel`. -/
lemma planeWrite_testBit (M a t : Nat) (ha : a + 1 < 16) (ht : t < 16)
    (gb rb : Prop) [Decidable gb] [Decidable rb] :
    ((if rb then
        (if gb then M &&& (65535 ^^^ (2 ^ (a + 1) ||| 2 ^ a)) ||| 2 ^ a
         else M &&& (65535 ^^^ (2 ^ (a + 1) ||| 2 ^ a))) ||| 2 ^ (a + 1)
      else if gb then M &&& (65535 ^^^ (2 ^ (a + 1) ||| 2 ^ a)) ||| 2 ^ a
      else M &&& (65535 ^^^ (2 ^ (a + 1) ||| 2 ^ a))).testBit t) =
    (if t = a then decide gb else if t = a + 1 then decide rb
     else M.testBit t) := by
  by_cases hta : t = a
  · subst hta
    rw [if_pos rfl]
    have h1 : Nat.testBit (2 ^ (t + 1)) t = false :=
      Nat.testBit_two_pow_of_ne (by omega)
    have h2 : Nat.testBit (65535 ^^^ (2 ^ (t + 1) ||| 2 ^ t)) t = false := by
      simp [Nat.testBit_xor, Nat.testBit_or, testBit_65535, ht, h1,
        Nat.testBit_two_pow_self]
    split_ifs with hr hg hg <;>
      simp [Nat.testBit_or, Nat.testBit_and, h1, h2,
        Nat.testBit_two_pow_self, hr, hg]
  · by_cases htb : t = a + 1
    · subst htb
      rw [if_neg hta, if_pos rfl]
      have h1 : Nat.testBit (2 ^ a) (a + 1) = false :=
        Nat.testBit_two_pow_of_ne (by omega)
      have h2 : Nat.testBit (65535 ^^^ (2 ^ (a + 1) ||| 2 ^ a)) (a + 1) =
          false := by
        simp [Nat.testBit_xor, Nat.testBit_or, testBit_65535, ht, h1,
          Nat.testBit_two_pow_self]
      split_ifs with hr hg hg <;>
        simp [Nat.testBit_or, Nat.testBit_and, h1, h2,
          Nat.testBit_two_pow_self, hr, hg]
    · rw [if_neg hta, if_neg htb]
      have h1 : Nat.testBit (2 ^ a) t = false :=
        Nat.testBit_two_pow_of_ne (by omega)
      have h2 : Nat.testBit (2 ^ (a + 1)) t = false :=
        Nat.testBit_two_pow_of_ne (by omega)
      have h3 : Nat.testBit (65535 ^^^ (2 ^ (a + 1) ||| 2 ^ a)) t = true := by
        simp [Nat.testBit_xor, Nat.testBit_or, testBit_65535, ht, h1, h2]
      split_ifs <;>
        simp [Nat.testBit_or, Nat.testBit_and, h1, h2, h3]

lemma color_recomb (c : Nat) (hc : c < 16) :
    ((((if c &&& 8 ≠ 0 then 8 else 0) ||| (if c &&& 2 ≠ 0 then 2 else 0)) |||
      (if c &&& 4 ≠ 0 then 4 else 0)) ||| (if c &&& 1 ≠ 0 then 1 else 0)
      : Nat) = c := by
  revert hc
  revert c
  decide

lemma dmGet_dmSet_same (scr : Screen) (x y c : Nat)
    (hx : x < 16) (hy : y < 8) (hc : c < 16) :
    dmGetPixel (dmSetPixel scr x y c) x y 0 = c := by
  have hy8 : y % 8 = y := Nat.mod_eq_of_lt hy
  have hdiv : y / 8 = 0 := Nat.div_eq_of_lt hy
  have hmask : pixcolMask (y % 8) = 2 ^ (2 * y) := by
    rw [hy8, pixcolMask_eq y hy]
  have hx16 : ¬ 16 ≤ x := by omega
  have hy8n : ¬ 8 ≤ y := by omega
  simp only [dmGetPixel, dmSetPixel, hmask, shiftLeft_one_pow, hdiv, hx16,
    hy8n, if_false, Nat.zero_mul, Nat.add_zero, if_true, eq_self_iff_true,
    and_pow_ne]
  rw [planeWrite_testBit ((scr x).msb) (2 * y) (2 * y + 1) (by omega)
      (by omega) (c &&& 2 ≠ 0) (c &&& 8 ≠ 0),
    planeWrite_testBit ((scr x).msb) (2 * y) (2 * y) (by omega) (by omega)
      (c &&& 2 ≠ 0) (c &&& 8 ≠ 0),
    planeWrite_testBit ((scr x).lsb) (2 * y) (2 * y + 1) (by omega)
      (by omega) (c &&& 1 ≠ 0) (c &&& 4 ≠ 0),
    planeWrite_testBit ((scr x).lsb) (2 * y) (2 * y) (by omega) (by omega)
      (c &&& 1 ≠ 0) (c &&& 4 ≠ 0)]
  have e1 : (2 * y + 1 = 2 * y) = False := eq_false (by omega)
  have e2 : (2 * y = 2 * y) = True := eq_true rfl
  have e3 : (2 * y + 1 = 2 * y + 1) = True := eq_true rfl
  simp only [e1, e2, e3, if_false, if_true, decide_eq_true_eq]
  exact color_recomb c hc

lemma dmGet_dmSet_other (scr : Screen) (x y c x2 y2 : Nat)
    (hx2 : x2 < 16) (hy2 : y2 < 8) (hne : x ≠ x2 ∨ y ≠ y2) :
    dmGetPixel (dmSetPixel scr x y c) x2 y2 0 = dmGetPixel scr x2 y2 0 := by
  by_cases hx16 : 16 ≤ x
  · simp [dmSetPixel, hx16]
  by_cases hy8 : 8 ≤ y
  · simp [dmSetPixel, hx16, hy8]
  have hy : y < 8 := by omega
  have hdiv : y / 8 = 0 := Nat.div_eq_of_lt hy
  have hdiv2 : y2 / 8 = 0 := Nat.div_eq_of_lt hy2
  have hmask : pixcolMask (y % 8) = 2 ^ (2 * y) := by
    rw [Nat.mod_eq_of_lt hy, pixcolMask_eq y hy]
  have hmask2 : pixcolMask (y2 % 8) = 2 ^ (2 * y2) := by
    rw [Nat.mod_eq_of_lt hy2, pixcolMask_eq y2 hy2]
  have hx162 : ¬ 16 ≤ x2 := by omega
  have hy82 : ¬ 8 ≤ y2 := by omega
  simp only [dmGetPixel, dmSetPixel, hmask, hmask2, shiftLeft_one_pow, hdiv,
    hdiv2, hx16, hy8, hx162, hy82, if_false, Nat.zero_mul, Nat.add_zero,
    and_pow_ne]
  by_cases hxx : x2 = x
  · subst hxx
    have hyy : y ≠ y2 := by
      rcases hne with h | h
      · exact absurd rfl h
      · exact h
    simp only [eq_self_iff_true, if_true]
    rw [planeWrite_testBit ((scr x2).msb) (2 * y) (2 * y2 + 1) (by omega)
        (by omega) (c &&& 2 ≠ 0) (c &&& 8 ≠ 0),
      planeWrite_testBit ((scr x2).msb) (2 * y) (2 * y2) (by omega)
        (by omega) (c &&& 2 ≠ 0) (c &&& 8 ≠ 0),
      planeWrite_testBit ((scr x2).lsb) (2 * y) (2 * y2 + 1) (by omega)
        (by omega) (c &&& 1 ≠ 0) (c &&& 4 ≠ 0),
      planeWrite_testBit ((scr x2).lsb) (2 * y) (2 * y2) (by omega)
        (by omega) (c &&& 1 ≠ 0) (c &&& 4 ≠ 0)]
    have e1 : (2 * y2 + 1 = 2 * y) = False := eq_false (by omega)
    have e2 : (2 * y2 + 1 = 2 * y + 1) = False := eq_false (by omega)
    have e3 : (2 * y2 = 2 * y) = False := eq_false (by omega)
    have e4 : (2 * y2 = 2 * y + 1) = False := eq_false (by omega)
    simp only [e1, e2, e3, e4, if_false]
  · simp only [if_neg hxx]

lemma dmSetPixel_out (scr : Screen) (x y c : Nat) (h : 16 ≤ x ∨ 8 ≤ y) :
    dmSetPixel scr x y c = scr := by
  rcases h with h | h <;> simp [dmSetPixel, h]

lemma dmGetPixel_out (scr : Screen) (x y sel : Nat) (h : 16 ≤ x ∨ 8 ≤ y) :
    dmGetPixel scr x y sel = 255 := by
  rcases h with h | h <;> simp [dmGetPixel, h]

lemma dmGetPixel_badsel (scr : Screen) (x y sel : Nat) (h0 : sel ≠ 0)
    (h1 : sel ≠ 1) : dmGetPixel scr x y sel = 255 := by
  simp [dmGetPixel, h0, h1]

/-! ## Orientation transform lemmas -/

lemma orient_bounds (g x y b : Nat) (hx : x ≤ 7) (hy : y ≤ 7) :
    (orient g x y b).1 < 16 ∧ (orient g x y b).2 < 8 := by
  simp only [orient]
  split_ifs <;> dsimp only <;> omega

lemma orient_mem (g x y b : Nat) (hx : x ≤ 7) (hy : y ≤ 7) :
    orient g x y b ∈ gridPts := by
  have h := orient_bounds g x y b hx hy
  simp only [gridPts, Finset.mem_product, Finset.mem_range]
  exact ⟨h.1, h.2⟩

lemma orient_inj_samebulb (g b x y x2 y2 : Nat) (hx : x ≤ 7) (hy : y ≤ 7)
    (hx2 : x2 ≤ 7) (hy2 : y2 ≤ 7) (hne : x ≠ x2 ∨ y ≠ y2) :
    orient g x y b ≠ orient g x2 y2 b := by
  simp only [orient]
  split_ifs <;> simp [Prod.ext_iff] <;> omega

lemma orient_drop_ne (g : Nat) : orient g 7 7 0 ≠ orient g 0 0 1 := by
  simp only [orient]
  split_ifs <;> simp [Prod.ext_iff]

lemma get_pixel_in (g : Nat) (scr : Screen) (x y b : Nat) (hx : x ≤ 7)
    (hy : y ≤ 7) : get_pixel g scr x y b = colorAt scr (orient g x y b) := by
  have h : ¬ (7 < x ∨ 7 < y) := by omega
  simp [get_pixel, colorAt, h]

lemma set_pixel_in (g : Nat) (scr : Screen) (x y b c : Nat) (hx : x ≤ 7)
    (hy : y ≤ 7) : set_pixel g scr x y b c =
      dmSetPixel scr (orient g x y b).1 (orient g x y b).2 c := by
  have h : ¬ (7 < x ∨ 7 < y) := by omega
  simp [set_pixel, h]

lemma colorAt_dmSet_same (scr : Screen) (p : Nat × Nat) (c : Nat)
    (h1 : p.1 < 16) (h2 : p.2 < 8) (hc : c < 16) :
    colorAt (dmSetPixel scr p.1 p.2 c) p = c :=
  dmGet_dmSet_same scr p.1 p.2 c h1 h2 hc

lemma colorAt_dmSet_other (scr : Screen) (q : Nat × Nat) (c : Nat)
    (p : Nat × Nat) (h1 : p.1 < 16) (h2 : p.2 < 8) (hne : p ≠ q) :
    colorAt (dmSetPixel scr q.1 q.2 c) p = colorAt scr p := by
  apply dmGet_dmSet_other scr q.1 q.2 c p.1 p.2 h1 h2
  by_contra h
  push_neg at h
  exact hne (Prod.ext h.1.symm h.2.symm)

/-! ## Grain counting lemmas -/

lemma grainCount_congr_zero (s1 s2 : Screen)
    (h : ∀ p ∈ gridPts, (colorAt s1 p = 0 ↔ colorAt s2 p = 0)) :
    grainCount s1 = grainCount s2 :=
  Finset.sum_congr rfl fun p hp => by
    by_cases h0 : colorAt s2 p = 0 <;> simp [h p hp, h0]

lemma mem_gridPts (p : Nat × Nat) : p ∈ gridPts ↔ p.1 < 16 ∧ p.2 < 8 := by
  simp [gridPts, Finset.mem_product]

lemma grainCount_set_set (scr : Screen) (a b : Nat × Nat) (hne : a ≠ b)
    (ha : a ∈ gridPts) (hb : b ∈ gridPts)
    (hsrc : colorAt scr a ≠ 0) (htgt : colorAt scr b = 0) :
    grainCount (dmSetPixel (dmSetPixel scr a.1 a.2 0) b.1 b.2 15) =
      grainCount scr := by
  have ha' := (mem_gridPts a).mp ha
  have hb' := (mem_gridPts b).mp hb
  have hca :
      colorAt (dmSetPixel (dmSetPixel scr a.1 a.2 0) b.1 b.2 15) a = 0 := by
    rw [colorAt_dmSet_other _ _ _ _ ha'.1 ha'.2 hne,
      colorAt_dmSet_same _ _ _ ha'.1 ha'.2 (by omega)]
  have hcb :
      colorAt (dmSetPixel (dmSetPixel scr a.1 a.2 0) b.1 b.2 15) b = 15 :=
    colorAt_dmSet_same _ _ _ hb'.1 hb'.2 (by omega)
  have hoff : ∀ p ∈ gridPts, p ≠ a → p ≠ b →
      colorAt (dmSetPixel (dmSetPixel scr a.1 a.2 0) b.1 b.2 15) p =
        colorAt scr p := by
    intro p hpg hpa hpb
    have hp := (mem_gridPts p).mp hpg
    rw [colorAt_dmSet_other _ _ _ _ hp.1 hp.2 hpb,
      colorAt_dmSet_other _ _ _ _ hp.1 hp.2 hpa]
  have hbmem : b ∈ gridPts.erase a := Finset.mem_erase.mpr ⟨Ne.symm hne, hb⟩
  unfold grainCount
  rw [← Finset.sum_erase_add gridPts
      (fun p => if colorAt (dmSetPixel (dmSetPixel scr a.1 a.2 0) b.1 b.2 15)
        p = 0 then 0 else 1) ha,
    ← Finset.sum_erase_add gridPts (fun p => if colorAt scr p = 0 then 0 else 1)
      ha,
    ← Finset.sum_erase_add (gridPts.erase a)
      (fun p => if colorAt (dmSetPixel (dmSetPixel scr a.1 a.2 0) b.1 b.2 15)
        p = 0 then 0 else 1) hbmem,
    ← Finset.sum_erase_add (gridPts.erase a)
      (fun p => if colorAt scr p = 0 then 0 else 1) hbmem]
  have hsum : ∑ p ∈ (gridPts.erase a).erase b,
      (if colorAt (dmSetPixel (dmSetPixel scr a.1 a.2 0) b.1 b.2 15) p = 0
        then 0 else 1) =
      ∑ p ∈ (gridPts.erase a).erase b,
      (if colorAt scr p = 0 then 0 else 1) := by
    apply Finset.sum_congr rfl
    intro p hp
    have hpb : p ≠ b := (Finset.mem_erase.mp hp).1
    have hpa : p ≠ a := (Finset.mem_erase.mp (Finset.mem_erase.mp hp).2).1
    have hpg : p ∈ gridPts := (Finset.mem_erase.mp (Finset.mem_erase.mp hp).2).2
    rw [hoff p hpg hpa hpb]
  rw [hsum, hca, hcb, htgt]
  simp [hsrc]

lemma move_grain_fail (g : Nat) (scr : Screen) (x y x2 y2 b : Nat)
    (h : (move_grain g scr x y x2 y2 b).2 = false) :
    (move_grain g scr x y x2 y2 b).1 = scr := by
  unfold move_grain at h ⊢
  split_ifs at h ⊢
  rfl

lemma get_pixel_out (g : Nat) (scr : Screen) (x y b : Nat)
    (h : 7 < x ∨ 7 < y) : get_pixel g scr x y b = 255 := by
  simp [get_pixel, h]

lemma grainCount_move (g : Nat) (scr : Screen) (x y x2 y2 b : Nat)
    (hx : x ≤ 7) (hy : y ≤ 7) (hsrc : get_pixel g scr x y b ≠ 0)
    (hne : x ≠ x2 ∨ y ≠ y2) :
    grainCount (move_grain g scr x y x2 y2 b).1 = grainCount scr := by
  unfold move_grain
  split_ifs with htgt
  · have hin : x2 ≤ 7 ∧ y2 ≤ 7 := by
      by_contra hcon
      rw [get_pixel_out g scr x2 y2 b (by omega)] at htgt
      exact absurd htgt (by norm_num)
    dsimp only
    rw [set_pixel_in g scr x y b 0 hx hy,
      set_pixel_in g _ x2 y2 b 15 hin.1 hin.2]
    refine grainCount_set_set scr (orient g x y b) (orient g x2 y2 b)
      (orient_inj_samebulb g b x y x2 y2 hx hy hin.1 hin.2 hne)
      (orient_mem g x y b hx hy) (orient_mem g x2 y2 b hin.1 hin.2) ?_ ?_
    · rw [← get_pixel_in g scr x y b hx hy]
      exact hsrc
    · rw [← get_pixel_in g scr x2 y2 b hin.1 hin.2]
      exact htgt
  · rfl

lemma grainCount_recolor (g : Nat) (scr : Screen) (x y b c : Nat)
    (hx : x ≤ 7) (hy : y ≤ 7) (hc : c < 16) (hcnz : c ≠ 0)
    (hsrc : get_pixel g scr x y b ≠ 0) :
    grainCount (set_pixel g scr x y b c) = grainCount scr := by
  rw [set_pixel_in g scr x y b c hx hy]
  apply grainCount_congr_zero
  intro p hpg
  have hp := (mem_gridPts p).mp hpg
  by_cases hpa : p = orient g x y b
  · subst hpa
    rw [colorAt_dmSet_same _ _ _ hp.1 hp.2 hc]
    rw [get_pixel_in g scr x y b hx hy] at hsrc
    exact iff_of_false hcnz hsrc
  · rw [colorAt_dmSet_other _ _ _ _ hp.1 hp.2 hpa]

lemma grainCount_drop (g : Nat) (scr : Screen) :
    grainCount (drop g scr) = grainCount scr := by
  unfold drop
  split_ifs with h1 h2
  · rfl
  · rw [set_pixel_in g scr 7 7 0 0 (by omega) (by omega),
      set_pixel_in g _ 0 0 1 15 (by omega) (by omega)]
    refine grainCount_set_set scr (orient g 7 7 0) (orient g 0 0 1)
      (orient_drop_ne g)
      (orient_mem g 7 7 0 (by omega) (by omega))
      (orient_mem g 0 0 1 (by omega) (by omega)) ?_ ?_
    · rw [← get_pixel_in g scr 7 7 0 (by omega) (by omega)]
      exact h1
    · rw [← get_pixel_in g scr 0 0 1 (by omega) (by omega)]
      exact h2
  · rfl

/-! Characterization equations of `simulate_grain`, one per execution
path of the C function. -/

lemma sim_eq_black (g : Nat) (s : SimState) (x0 y0 b : Nat)
    (h0 : get_pixel g s.scr (x0 &&& 7) (y0 &&& 7) b = 0) :
    simulate_grain g s x0 y0 b =
      (⟨s.scr, s.side, (s.counter + 1) % 256⟩, (s.counter + 1) % 256) := by
  unfold simulate_grain
  dsimp only
  rw [if_pos h0]

lemma sim_eq_diag (g : Nat) (s : SimState) (x0 y0 b : Nat)
    (h0 : ¬ get_pixel g s.scr (x0 &&& 7) (y0 &&& 7) b = 0)
    (hm1 : (move_grain g s.scr (x0 &&& 7) (y0 &&& 7) ((x0 &&& 7) + 1)
      ((y0 &&& 7) + 1) b).2 = true) :
    simulate_grain g s x0 y0 b =
      (⟨(move_grain g s.scr (x0 &&& 7) (y0 &&& 7) ((x0 &&& 7) + 1)
        ((y0 &&& 7) + 1) b).1, s.side, 0⟩, 0) := by
  unfold simulate_grain
  dsimp only
  rw [if_neg h0, if_pos hm1]

lemma sim_eq_move2 (g : Nat) (s : SimState) (x0 y0 b : Nat)
    (h0 : ¬ get_pixel g s.scr (x0 &&& 7) (y0 &&& 7) b = 0)
    (hm1 : (move_grain g s.scr (x0 &&& 7) (y0 &&& 7) ((x0 &&& 7) + 1)
      ((y0 &&& 7) + 1) b).2 = false) :
    simulate_grain g s x0 y0 b =
      (let p2 := if s.side ≠ 0 then ((x0 &&& 7) + 1, y0 &&& 7)
        else (x0 &&& 7, (y0 &&& 7) + 1)
       let p3 := if s.side ≠ 0 then (x0 &&& 7, (y0 &&& 7) + 1)
        else ((x0 &&& 7) + 1, y0 &&& 7)
       let r2 := move_grain g s.scr (x0 &&& 7) (y0 &&& 7) p2.1 p2.2 b
       if r2.2 then (⟨r2.1, s.side ^^^ 1, 0⟩, 0)
       else
         let r3 := move_grain g s.scr (x0 &&& 7) (y0 &&& 7) p3.1 p3.2 b
         if r3.2 then (⟨r3.1, s.side ^^^ 1, 0⟩, 0)
         else
           let c := if b = 1 then (s.counter + 1) % 256 else 0
           (⟨set_pixel g s.scr (x0 &&& 7) (y0 &&& 7) b 7, s.side ^^^ 1, c⟩,
             c)) := by
  have hf1 := move_grain_fail g s.scr (x0 &&& 7) (y0 &&& 7) ((x0 &&& 7) + 1)
    ((y0 &&& 7) + 1) b hm1
  unfold simulate_grain
  dsimp only
  rw [if_neg h0, if_neg (by rw [hm1]; exact Bool.false_ne_true), hf1]
  by_cases hside : s.side ≠ 0
  · rw [if_pos hside, if_pos hside, if_pos hside]
    dsimp only
    by_cases hm2 : (move_grain g s.scr (x0 &&& 7) (y0 &&& 7) ((x0 &&& 7) + 1)
      (y0 &&& 7) b).2 = true
    · rw [if_pos hm2, if_pos hm2]
    · have hf2 := move_grain_fail g s.scr (x0 &&& 7) (y0 &&& 7)
        ((x0 &&& 7) + 1) (y0 &&& 7) b (by simpa using hm2)
      rw [if_neg hm2, if_neg hm2, hf2]
      by_cases hm3 : (move_grain g s.scr (x0 &&& 7) (y0 &&& 7) (x0 &&& 7)
        ((y0 &&& 7) + 1) b).2 = true
      · rw [if_pos hm3, if_pos hm3]
      · have hf3 := move_grain_fail g s.scr (x0 &&& 7) (y0 &&& 7) (x0 &&& 7)
          ((y0 &&& 7) + 1) b (by simpa using hm3)
        rw [if_neg hm3, if_neg hm3, hf3]
  · rw [if_neg hside, if_neg hside, if_neg hside]
    dsimp only
    by_cases hm2 : (move_grain g s.scr (x0 &&& 7) (y0 &&& 7) (x0 &&& 7)
      ((y0 &&& 7) + 1) b).2 = true
    · rw [if_pos hm2, if_pos hm2]
    · have hf2 := move_grain_fail g s.scr (x0 &&& 7) (y0 &&& 7) (x0 &&& 7)
        ((y0 &&& 7) + 1) b (by simpa using hm2)
      rw [if_neg hm2, if_neg hm2, hf2]
      by_cases hm3 : (move_grain g s.scr (x0 &&& 7) (y0 &&& 7)
        ((x0 &&& 7) + 1) (y0 &&& 7) b).2 = true
      · rw [if_pos hm3, if_pos hm3]
      · have hf3 := move_grain_fail g s.scr (x0 &&& 7) (y0 &&& 7)
          ((x0 &&& 7) + 1) (y0 &&& 7) b (by simpa using hm3)
        rw [if_neg hm3, if_neg hm3, hf3]

lemma grainCount_sim (g : Nat) (s : SimState) (x0 y0 b : Nat) :
    grainCount (simulate_grain g s x0 y0 b).1.scr = grainCount s.scr := by
  have hx : x0 &&& 7 ≤ 7 := Nat.and_le_right
  have hy : y0 &&& 7 ≤ 7 := Nat.and_le_right
  by_cases h0 : get_pixel g s.scr (x0 &&& 7) (y0 &&& 7) b = 0
  · rw [sim_eq_black g s x0 y0 b h0]
  · by_cases hm1 : (move_grain g s.scr (x0 &&& 7) (y0 &&& 7) ((x0 &&& 7) + 1)
      ((y0 &&& 7) + 1) b).2 = true
    · rw [sim_eq_diag g s x0 y0 b h0 hm1]
      exact grainCount_move g s.scr _ _ _ _ b hx hy h0 (Or.inl (by omega))
    · rw [sim_eq_move2 g s x0 y0 b h0 (by simpa using hm1)]
      by_cases hside : s.side ≠ 0
      · rw [if_pos hside, if_pos hside]
        dsimp only
        by_cases hm2 : (move_grain g s.scr (x0 &&& 7) (y0 &&& 7)
            ((x0 &&& 7) + 1) (y0 &&& 7) b).2 = true
        · rw [if_pos hm2]
          exact grainCount_move g s.scr _ _ _ _ b hx hy h0 (Or.inl (by omega))
        · rw [if_neg hm2]
          by_cases hm3 : (move_grain g s.scr (x0 &&& 7) (y0 &&& 7)
              (x0 &&& 7) ((y0 &&& 7) + 1) b).2 = true
          · rw [if_pos hm3]
            exact grainCount_move g s.scr _ _ _ _ b hx hy h0
              (Or.inr (by omega))
          · rw [if_neg hm3]
            exact grainCount_recolor g s.scr _ _ b 7 hx hy (by omega)
              (by omega) h0
      · rw [if_neg hside, if_neg hside]
        dsimp only
        by_cases hm2 : (move_grain g s.scr (x0 &&& 7) (y0 &&& 7)
            (x0 &&& 7) ((y0 &&& 7) + 1) b).2 = true
        · rw [if_pos hm2]
          exact grainCount_move g s.scr _ _ _ _ b hx hy h0 (Or.inr (by omega))
        · rw [if_neg hm2]
          by_cases hm3 : (move_grain g s.scr (x0 &&& 7) (y0 &&& 7)
              ((x0 &&& 7) + 1) (y0 &&& 7) b).2 = true
          · rw [if_pos hm3]
            exact grainCount_move g s.scr _ _ _ _ b hx hy h0
              (Or.inl (by omega))
          · rw [if_neg hm3]
            exact grainCount_recolor g s.scr _ _ b 7 hx hy (by omega)
              (by omega) h0

/-! ## LFSR lemmas -/

set_option maxRecDepth 8000

lemma lfsrCheck_true : lfsrCheck = true := by decide

lemma lfsrIter_eq (k : Nat) : ∀ S, lfsrIter k S = lfsrStep^[k] S := by
  induction k with
  | zero => intro S; rfl
  | succ n ih =>
    intro S
    rw [Function.iterate_succ_apply]
    exact ih (lfsrStep S)

/-- Facts about the Galois LFSR with feedback mask `0x1D`, extracted
from the exhaustive check `lfsrCheck`. -/
lemma lfsr_base : ∀ S, S < 256 → S ≠ 0 →
    (lfsrStep^[255] S = S ∧ lfsrStep^[85] S ≠ S ∧ lfsrStep^[51] S ≠ S ∧
     lfsrStep^[15] S ≠ S ∧ lfsrStep S ≠ 0 ∧ lfsrStep S < 256) := by
  intro S hS h0
  have h := List.all_eq_true.mp lfsrCheck_true S (List.mem_range.mpr hS)
  rw [if_neg h0] at h
  simp only [Bool.and_eq_true, beq_iff_eq, Bool.not_eq_true',
    beq_eq_false_iff_ne, decide_eq_true_eq, ← lfsrIter_eq] at h ⊢
  exact ⟨h.1.1.1.1.1, h.1.1.1.1.2, h.1.1.1.2, h.1.1.2, h.1.2, h.2⟩

lemma iterFixMul {α : Type} (f : α → α) (x : α) (b : Nat)
    (h : f^[b] x = x) : ∀ k, f^[k * b] x = x := by
  intro k
  induction k with
  | zero => simp
  | succ n ih => rw [Nat.succ_mul, Function.iterate_add_apply, h, ih]

lemma iterFixGcd {α : Type} (f : α → α) (x : α) : ∀ a b, f^[a] x = x →
    f^[b] x = x → f^[Nat.gcd a b] x = x := by
  intro a
  induction a using Nat.strong_induction_on with
  | _ a ih =>
    intro b ha hb
    rcases Nat.eq_zero_or_pos a with h0 | hpos
    · subst h0
      simpa using hb
    · rw [Nat.gcd_rec a b]
      have hmul : f^[(b / a) * a] x = x := iterFixMul f x a ha (b / a)
      have h1 : f^[b % a] x = x := by
        have hb2 : f^[b % a + a * (b / a)] x = x := by
          rw [Nat.mod_add_div]
          exact hb
        rw [Function.iterate_add_apply, mul_comm a (b / a), hmul] at hb2
        exact hb2
      exact ih (b % a) (Nat.mod_lt b hpos) a h1 ha

lemma lfsr_iter_nonzero (S : Nat) (hS : S < 256) (h0 : S ≠ 0) :
    ∀ k, lfsrStep^[k] S ≠ 0 ∧ lfsrStep^[k] S < 256 := by
  intro k
  induction k with
  | zero => exact ⟨h0, hS⟩
  | succ n ih =>
    rw [Function.iterate_succ_apply']
    have hb := lfsr_base _ ih.2 ih.1
    exact ⟨hb.2.2.2.2.1, hb.2.2.2.2.2⟩

lemma div_255_facts : ∀ d, d < 255 → d ∣ 255 →
    d ∣ 85 ∨ d ∣ 51 ∨ d ∣ 15 := by decide

lemma lfsr_iter_ne (S : Nat) (hS : S < 256) (h0 : S ≠ 0) :
    ∀ e, 1 ≤ e → e ≤ 254 → lfsrStep^[e] S ≠ S := by
  intro e he1 he2 heq
  have hbase := lfsr_base S hS h0
  have hg : lfsrStep^[Nat.gcd e 255] S = S :=
    iterFixGcd lfsrStep S e 255 heq hbase.1
  have hdvd : Nat.gcd e 255 ∣ 255 := Nat.gcd_dvd_right e 255
  have hlt : Nat.gcd e 255 < 255 :=
    lt_of_le_of_lt (Nat.le_of_dvd (by omega) (Nat.gcd_dvd_left e 255))
      (by omega)
  rcases div_255_facts _ hlt hdvd with h | h | h
  · rcases h with ⟨m, hm⟩
    have := iterFixMul lfsrStep S (Nat.gcd e 255) hg m
    rw [mul_comm, ← hm] at this
    exact hbase.2.1 this
  · rcases h with ⟨m, hm⟩
    have := iterFixMul lfsrStep S (Nat.gcd e 255) hg m
    rw [mul_comm, ← hm] at this
    exact hbase.2.2.1 this
  · rcases h with ⟨m, hm⟩
    have := iterFixMul lfsrStep S (Nat.gcd e 255) hg m
    rw [mul_comm, ← hm] at this
    exact hbase.2.2.2.1 this

/-! ## Further helper lemmas for the claims -/

lemma and7_mod8 (x : Nat) : x &&& 7 = x % 8 := by
  rw [show (7 : Nat) = 2 ^ 3 - 1 from rfl, Nat.and_pow_two_sub_one_eq_mod]

lemma sim_ret_counter (g : Nat) (s : SimState) (x0 y0 b : Nat) :
    (simulate_grain g s x0 y0 b).2 = (simulate_grain g s x0 y0 b).1.counter := by
  by_cases h0 : get_pixel g s.scr (x0 &&& 7) (y0 &&& 7) b = 0
  · rw [sim_eq_black g s x0 y0 b h0]
  · by_cases hm1 : (move_grain g s.scr (x0 &&& 7) (y0 &&& 7) ((x0 &&& 7) + 1)
      ((y0 &&& 7) + 1) b).2 = true
    · rw [sim_eq_diag g s x0 y0 b h0 hm1]
    · rw [sim_eq_move2 g s x0 y0 b h0 (by simpa using hm1)]
      dsimp only
      split_ifs <;> rfl

lemma orient_inj_cross (g : Nat) (hg : g = 0 ∨ g = 1) :
    ∀ b1 ≤ 1, ∀ x1 ≤ 7, ∀ y1 ≤ 7, ∀ b2 ≤ 1, ∀ x2 ≤ 7, ∀ y2 ≤ 7,
      orient g x1 y1 b1 = orient g x2 y2 b2 →
      b1 = b2 ∧ x1 = x2 ∧ y1 = y2 := by
  intro b1 hb1 x1 hx1 y1 hy1 b2 hb2 x2 hx2 y2 hy2 heq
  rcases hg with h | h <;> subst h <;>
    interval_cases b1 <;> interval_cases b2 <;>
    simp [orient, Prod.ext_iff] at heq ⊢ <;> omega

lemma drop_transfer (g : Nat) (scr : Screen) (hg : g = 0 ∨ g = 1)
    (hexit : get_pixel g scr 7 7 0 ≠ 0) (hentry : get_pixel g scr 0 0 1 = 0) :
    get_pixel g (drop g scr) 7 7 0 = 0 ∧ get_pixel g (drop g scr) 0 0 1 = 15 ∧
    (∀ x y bb : Nat, x ≤ 7 → y ≤ 7 → bb ≤ 1 →
      ¬(x = 7 ∧ y = 7 ∧ bb = 0) → ¬(x = 0 ∧ y = 0 ∧ bb = 1) →
      get_pixel g (drop g scr) x y bb = get_pixel g scr x y bb) := by
  have hex := (mem_gridPts (orient g 7 7 0)).mp
    (orient_mem g 7 7 0 (by omega) (by omega))
  have hen := (mem_gridPts (orient g 0 0 1)).mp
    (orient_mem g 0 0 1 (by omega) (by omega))
  have hd : drop g scr =
      dmSetPixel (dmSetPixel scr (orient g 7 7 0).1 (orient g 7 7 0).2 0)
        (orient g 0 0 1).1 (orient g 0 0 1).2 15 := by
    unfold drop
    rw [if_neg hexit, if_pos hentry, set_pixel_in g scr 7 7 0 0 (by omega)
      (by omega), set_pixel_in g _ 0 0 1 15 (by omega) (by omega)]
  refine ⟨?_, ?_, ?_⟩
  · rw [get_pixel_in g _ 7 7 0 (by omega) (by omega), hd,
      colorAt_dmSet_other _ _ _ _ hex.1 hex.2 (orient_drop_ne g),
      colorAt_dmSet_same _ _ _ hex.1 hex.2 (by omega)]
  · rw [get_pixel_in g _ 0 0 1 (by omega) (by omega), hd,
      colorAt_dmSet_same _ _ _ hen.1 hen.2 (by omega)]
  · intro x y bb hx hy hbb hne1 hne2
    have hp := (mem_gridPts (orient g x y bb)).mp (orient_mem g x y bb hx hy)
    have hne1' : orient g x y bb ≠ orient g 7 7 0 := fun he => by
      have := orient_inj_cross g hg bb hbb x hx y hy 0 (by omega) 7 (by omega)
        7 (by omega) he
      exact hne1 ⟨this.2.1, this.2.2, this.1⟩
    have hne2' : orient g x y bb ≠ orient g 0 0 1 := fun he => by
      have := orient_inj_cross g hg bb hbb x hx y hy 1 (by omega) 0 (by omega)
        0 (by omega) he
      exact hne2 ⟨this.2.1, this.2.2, this.1⟩
    rw [get_pixel_in g _ x y bb hx hy, hd,
      colorAt_dmSet_other _ _ _ _ hp.1 hp.2 hne2',
      colorAt_dmSet_other _ _ _ _ hp.1 hp.2 hne1',
      ← get_pixel_in g scr x y bb hx hy]

lemma drop_noop (g : Nat) (scr : Screen)
    (h : get_pixel g scr 7 7 0 = 0 ∨ get_pixel g scr 0 0 1 ≠ 0) :
    drop g scr = scr := by
  unfold drop
  rcases h with h | h
  · rw [if_pos h]
  · rcases em (get_pixel g scr 7 7 0 = 0) with h2 | h2
    · rw [if_pos h2]
    · rw [if_neg h2, if_neg h]

lemma runDrops_lastd_ge (g dc : Nat) (ts : List Nat) (c : Nat) :
    ∀ s : DropState, c ≤ s.lastd → (∀ u ∈ ts, c ≤ u) →
      c ≤ (runDrops g dc ts s).lastd := by
  induction ts with
  | nil => intro s hc _; exact hc
  | cons t rest ih =>
    intro s hc hts
    unfold runDrops
    rw [List.foldl_cons]
    apply ih
    · unfold dropTick
      split_ifs
      · exact hts t (List.mem_cons_self t rest)
      · exact hc
    · intro u hu
      exact hts u (List.mem_cons_of_mem t hu)

lemma grainCount_sandTicks (g : Nat) (acts : List SandAct) :
    ∀ s : SimState, grainCount ((acts.foldl (sandTick g) s).scr) =
      grainCount s.scr := by
  induction acts with
  | nil => intro s; rfl
  | cons a rest ih =>
    intro s
    rw [List.foldl_cons, ih]
    cases a with
    | dropA => exact grainCount_drop g s.scr
    | simA r => exact grainCount_sim g s _ _ _

lemma tryTargets_one (g : Nat) (scr : Screen) (x y a1 a2 b : Nat) :
    tryTargets g scr x y [(a1, a2)] b =
      (if (move_grain g scr x y a1 a2 b).2 then
        some (move_grain g scr x y a1 a2 b).1 else none) := by
  unfold tryTargets
  dsimp only
  by_cases h : (move_grain g scr x y a1 a2 b).2 = true
  · rw [if_pos h, if_pos h]
  · rw [if_neg h, if_neg h]
    unfold tryTargets
    rfl

lemma tryTargets_two (g : Nat) (scr : Screen) (x y a1 a2 b1 b2 b : Nat) :
    tryTargets g scr x y [(a1, a2), (b1, b2)] b =
      (if (move_grain g scr x y a1 a2 b).2 then
        some (move_grain g scr x y a1 a2 b).1
       else if (move_grain g (move_grain g scr x y a1 a2 b).1 x y b1 b2 b).2
       then some (move_grain g (move_grain g scr x y a1 a2 b).1 x y b1 b2 b).1
       else none) := by
  unfold tryTargets
  dsimp only
  by_cases h : (move_grain g scr x y a1 a2 b).2 = true
  · rw [if_pos h, if_pos h]
  · rw [if_neg h, if_neg h, tryTargets_one]

lemma sim_eq_spec (g : Nat) (s : SimState) (x0 y0 b : Nat) :
    simulate_grain g s x0 y0 b = simGrainSpec g s x0 y0 b := by
  unfold simGrainSpec
  rw [← and7_mod8 x0, ← and7_mod8 y0]
  by_cases h0 : get_pixel g s.scr (x0 &&& 7) (y0 &&& 7) b = 0
  · rw [sim_eq_black g s x0 y0 b h0, if_pos h0]
  · rw [if_neg h0, tryTargets_one]
    by_cases hm1 : (move_grain g s.scr (x0 &&& 7) (y0 &&& 7) ((x0 &&& 7) + 1)
      ((y0 &&& 7) + 1) b).2 = true
    · rw [sim_eq_diag g s x0 y0 b h0 hm1, if_pos hm1]
    · rw [sim_eq_move2 g s x0 y0 b h0 (by simpa using hm1), if_neg hm1]
      dsimp only
      by_cases hside : s.side ≠ 0
      · rw [if_pos hside, if_pos hside, if_pos hside, tryTargets_two]
        dsimp only
        by_cases hm2 : (move_grain g s.scr (x0 &&& 7) (y0 &&& 7)
            ((x0 &&& 7) + 1) (y0 &&& 7) b).2 = true
        · rw [if_pos hm2, if_pos hm2]
        · have hf2 := move_grain_fail g s.scr (x0 &&& 7) (y0 &&& 7)
            ((x0 &&& 7) + 1) (y0 &&& 7) b (by simpa using hm2)
          rw [if_neg hm2, if_neg hm2, hf2]
          by_cases hm3 : (move_grain g s.scr (x0 &&& 7) (y0 &&& 7) (x0 &&& 7)
            ((y0 &&& 7) + 1) b).2 = true
          · rw [if_pos hm3, if_pos hm3]
          · rw [if_neg hm3, if_neg hm3]
      · rw [if_neg hside, if_neg hside, if_neg hside, tryTargets_two]
        dsimp only
        by_cases hm2 : (move_grain g s.scr (x0 &&& 7) (y0 &&& 7) (x0 &&& 7)
            ((y0 &&& 7) + 1) b).2 = true
        · rw [if_pos hm2, if_pos hm2]
        · have hf2 := move_grain_fail g s.scr (x0 &&& 7) (y0 &&& 7) (x0 &&& 7)
            ((y0 &&& 7) + 1) b (by simpa using hm2)
          rw [if_neg hm2, if_neg hm2, hf2]
          by_cases hm3 : (move_grain g s.scr (x0 &&& 7) (y0 &&& 7)
            ((x0 &&& 7) + 1) (y0 &&& 7) b).2 = true
          · rw [if_pos hm3, if_pos hm3]
          · rw [if_neg hm3, if_neg hm3]

/-! ## Claim theorems -/

/-- C1 (counterexample): the main loop does not transition to ALARM in
the first tick in which the rest counter reaches the grain total 54.
Concretely, sampling an empty cell with the counter at 53 raises the
counter to 54, yet the `255 == simulate_grain(...)` test in `main`
does not fire. -/
theorem c1_counterexample :
    (mainSimStep 0 ⟨clearScreen, 0, 53⟩ 0).1.counter = 54 ∧
    (mainSimStep 0 ⟨clearScreen, 0, 53⟩ 0).2 = false := by
  constructor <;> rfl

/-- C1 (amended): the main loop transitions to ALARM mode exactly in a
tick in which the rest counter (the `static_counter` of
`simulate_grain`, a `uint8_t`) reaches 255 — the value returned by
`simulate_grain` is always the updated counter, and `main` enters
ALARM precisely when that return value is 255, not when it is the
grain total 54. -/
theorem c1_alarm_at_255 (g : Nat) (s : SimState) (r : Nat) :
    (mainSimStep g s r).2 = true ↔ (mainSimStep g s r).1.counter = 255 := by
  unfold mainSimStep
  dsimp only
  rw [sim_ret_counter]
  exact beq_iff_eq

/-- C2 (counterexample): the fallback-order flag does not alternate on
every call of `simulate_grain`; it only toggles on calls that reach
the axis-aligned fallback stage.  After one call on an empty cell, the
code still prefers the same fallback order, while the
alternate-every-call reading predicts the opposite order: on a grain
at (3,3) with the diagonal blocked, the code moves the grain to
physical (3,4) whereas the claimed rule moves it to (4,3). -/
theorem c2_counterexample :
    colorAt (simulate_grain 0
      (simulate_grain 0
        ⟨dmSetPixel (dmSetPixel clearScreen 3 3 15) 4 4 7, 0, 0⟩
        0 0 0).1 3 3 0).1.scr (4, 3) = 0 ∧
    colorAt (simulate_grain 0
      (simulate_grain 0
        ⟨dmSetPixel (dmSetPixel clearScreen 3 3 15) 4 4 7, 0, 0⟩
        0 0 0).1 3 3 0).1.scr (3, 4) = 15 ∧
    colorAt (simGrainClaim 0
      (simGrainClaim 0
        ⟨dmSetPixel (dmSetPixel clearScreen 3 3 15) 4 4 7, 0, 0⟩
        0 0 0).1 3 3 0).1.scr (4, 3) = 15 ∧
    colorAt (simGrainClaim 0
      (simGrainClaim 0
        ⟨dmSetPixel (dmSetPixel clearScreen 3 3 15) 4 4 7, 0, 0⟩
        0 0 0).1 3 3 0).1.scr (3, 4) = 0 := by
  refine ⟨?_, ?_, ?_, ?_⟩ <;> decide

/-- C2 (amended): for every sampled cell, `simulate_grain` applies
exactly the claimed rules in order — empty cell counts a rest tick;
else the diagonal move; else the two axis-aligned moves in the order
given by the toggling flag, with the preferred order alternating on
every call that reaches the axis-aligned fallback stage (not on every
call); else the grain settles in place, the counter rising only in
the lower bulb.  Formally the code step equals the rule-list
interpretation `simGrainSpec`. -/
theorem c2_rule_order (g : Nat) (s : SimState) (x0 y0 b : Nat) :
    simulate_grain g s x0 y0 b = simGrainSpec g s x0 y0 b :=
  sim_eq_spec g s x0 y0 b

/-- C3 (counterexample): the drop guard measures ticks since the last
drop attempt, not since the last transfer.  In the run below a grain
transfers at timer 2; a fruitless attempt at timer 4 (exit empty)
resets the timer; the relaxation steps then refill the exit cell and
clear the entry cell; at timer 5, three ticks (≥ drop_cycle = 2) have
elapsed since the last transfer with the exit occupied and the entry
empty, yet no transfer fires because only one tick has elapsed since
the last attempt. -/
theorem c3_counterexample :
    xferAt 0 2 ((⟨dmSetPixel (dmSetPixel clearScreen 7 7 15) 6 6 15, 0, 0⟩ :
      SimState), 0) 2 = true ∧
    xferAt 0 2 ([(2, 0)].foldl (runIter 0 2)
      ((⟨dmSetPixel (dmSetPixel clearScreen 7 7 15) 6 6 15, 0, 0⟩ :
        SimState), 0)) 4 = false ∧
    xferAt 0 2 ([(2, 0), (4, 0)].foldl (runIter 0 2)
      ((⟨dmSetPixel (dmSetPixel clearScreen 7 7 15) 6 6 15, 0, 0⟩ :
        SimState), 0)) 5 = false ∧
    xferAt 0 2 ([(2, 0), (4, 0), (5, 108)].foldl (runIter 0 2)
      ((⟨dmSetPixel (dmSetPixel clearScreen 7 7 15) 6 6 15, 0, 0⟩ :
        SimState), 0)) 5 = false ∧
    xferAt 0 2 ([(2, 0), (4, 0), (5, 108), (5, 1)].foldl (runIter 0 2)
      ((⟨dmSetPixel (dmSetPixel clearScreen 7 7 15) 6 6 15, 0, 0⟩ :
        SimState), 0)) 5 = false ∧
    ([(2, 0), (4, 0), (5, 108), (5, 1)].foldl (runIter 0 2)
      ((⟨dmSetPixel (dmSetPixel clearScreen 7 7 15) 6 6 15, 0, 0⟩ :
        SimState), 0)).2 = 4 ∧
    get_pixel 0 ([(2, 0), (4, 0), (5, 108), (5, 1)].foldl (runIter 0 2)
      ((⟨dmSetPixel (dmSetPixel clearScreen 7 7 15) 6 6 15, 0, 0⟩ :
        SimState), 0)).1.scr 7 7 0 ≠ 0 ∧
    get_pixel 0 ([(2, 0), (4, 0), (5, 108), (5, 1)].foldl (runIter 0 2)
      ((⟨dmSetPixel (dmSetPixel clearScreen 7 7 15) 6 6 15, 0, 0⟩ :
        SimState), 0)).1.scr 0 0 1 = 0 ∧
    2 ≤ 5 - 2 := by
  refine ⟨?_, ?_, ?_, ?_, ?_, ?_, ?_, ?_, ?_⟩ <;> decide

/-- C3 (amended): with the timer measured from the last drop attempt
(`last_drop` is reset on every tick whose guard passes, whether or not
a grain moves): on any tick with at least `drop_cycle` ticks (mod
2^16) since the last attempt, if the exit cell (7,7,UPPER) holds a
grain and the entry cell (0,0,LOWER) is empty, exactly one grain moves
(exit becomes black, entry becomes the moving color 15, all other
cells unchanged) and the timer resets; no transfer occurs when the
entry is occupied or the exit is empty; and two transfers are always
at least `drop_cycle` real ticks apart. -/
theorem c3_timed_transfer (g dc t : Nat) (s : DropState)
    (hg : g = 0 ∨ g = 1) :
    (dc ≤ (t - s.lastd) % 65536 → get_pixel g s.scr 7 7 0 ≠ 0 →
      get_pixel g s.scr 0 0 1 = 0 →
      (dropTick g dc t s).lastd = t ∧
      get_pixel g (dropTick g dc t s).scr 7 7 0 = 0 ∧
      get_pixel g (dropTick g dc t s).scr 0 0 1 = 15 ∧
      (∀ x y bb : Nat, x ≤ 7 → y ≤ 7 → bb ≤ 1 →
        ¬(x = 7 ∧ y = 7 ∧ bb = 0) → ¬(x = 0 ∧ y = 0 ∧ bb = 1) →
        get_pixel g (dropTick g dc t s).scr x y bb =
          get_pixel g s.scr x y bb)) ∧
    (dc ≤ (t - s.lastd) % 65536 →
      (get_pixel g s.scr 7 7 0 = 0 ∨ get_pixel g s.scr 0 0 1 ≠ 0) →
      (dropTick g dc t s).scr = s.scr) ∧
    (¬ dc ≤ (t - s.lastd) % 65536 → dropTick g dc t s = s) ∧
    (∀ (ts : List Nat) (t2 : Nat), dc ≤ (t - s.lastd) % 65536 →
      (∀ u ∈ ts, t ≤ u) →
      transferOccurs g dc t2 (runDrops g dc ts (dropTick g dc t s)) →
      dc ≤ t2 - t) := by
  refine ⟨?_, ?_, ?_, ?_⟩
  · intro hguard hexit hentry
    unfold dropTick
    rw [if_pos hguard]
    dsimp only
    have h := drop_transfer g s.scr hg hexit hentry
    exact ⟨rfl, h.1, h.2.1, h.2.2⟩
  · intro hguard hno
    unfold dropTick
    rw [if_pos hguard]
    dsimp only
    exact drop_noop g s.scr (by tauto)
  · intro hguard
    unfold dropTick
    rw [if_neg hguard]
  · intro ts t2 hguard hts hxfer
    have hlast : t ≤ (runDrops g dc ts (dropTick g dc t s)).lastd := by
      apply runDrops_lastd_ge g dc ts t
      · unfold dropTick
        rw [if_pos hguard]
      · exact hts
    have h1 := hxfer.1
    have h2 : (t2 - (runDrops g dc ts (dropTick g dc t s)).lastd) % 65536 ≤
        t2 - (runDrops g dc ts (dropTick g dc t s)).lastd :=
      Nat.mod_le _ _
    omega

/-- C3 (witness): the amended transfer theorem at a concrete state
with the exit cell occupied, the entry cell empty and an expired
timer. -/
theorem c3_timed_transfer_witness :
    (dropTick 0 1 1 ⟨0, dmSetPixel clearScreen 7 7 15⟩).lastd = 1 ∧
    get_pixel 0 (dropTick 0 1 1 ⟨0, dmSetPixel clearScreen 7 7 15⟩).scr
      7 7 0 = 0 ∧
    get_pixel 0 (dropTick 0 1 1 ⟨0, dmSetPixel clearScreen 7 7 15⟩).scr
      0 0 1 = 15 ∧
    (∀ x y bb : Nat, x ≤ 7 → y ≤ 7 → bb ≤ 1 →
      ¬(x = 7 ∧ y = 7 ∧ bb = 0) → ¬(x = 0 ∧ y = 0 ∧ bb = 1) →
      get_pixel 0 (dropTick 0 1 1 ⟨0, dmSetPixel clearScreen 7 7 15⟩).scr
        x y bb =
        get_pixel 0 (⟨0, dmSetPixel clearScreen 7 7 15⟩ : DropState).scr
          x y bb) :=
  (c3_timed_transfer 0 1 1 ⟨0, dmSetPixel clearScreen 7 7 15⟩
    (Or.inl rfl)).1 (by decide) (by decide) (by decide)

/-- C4 (counterexample): output number 256 after reseeding does not
equal the seed; with seed 120 (the firmware default) the 256th output
is the same as the first, not the seed itself. -/
theorem c4_counterexample : outSeq 120 256 ≠ 120 := by
  unfold outSeq
  rw [← lfsrIter_eq]
  decide

/-- C4 (amended): for every nonzero 8-bit seed `S` given to `random`,
the returned value and every subsequent value from `random(0)` is
nonzero; the 255 successive outputs following the reseed are pairwise
distinct; and output number 255 equals `S` (hence output 256 equals
output 1: the sequence repeats with period 255). -/
theorem c4_prng (S : Nat) (h1 : 0 < S) (h2 : S < 256) :
    (∀ st : Nat, random st S = outSeq S 1) ∧
    (∀ k : Nat, random (outSeq S k) 0 = outSeq S (k + 1)) ∧
    (∀ k : Nat, 0 < k → outSeq S k ≠ 0) ∧
    (∀ i j : Nat, 1 ≤ i → i < j → j ≤ 255 → outSeq S i ≠ outSeq S j) ∧
    outSeq S 255 = S ∧ outSeq S 256 = outSeq S 1 := by
  have hS0 : S ≠ 0 := by omega
  have hbase := lfsr_base S h2 hS0
  refine ⟨?_, ?_, ?_, ?_, hbase.1, ?_⟩
  · intro st
    unfold random outSeq
    rw [if_pos hS0, Function.iterate_one]
  · intro k
    unfold random outSeq
    rw [if_neg (by simp), Function.iterate_succ_apply']
  · intro k hk
    exact (lfsr_iter_nonzero S h2 hS0 k).1
  · intro i j hi hij hj heq
    have he : lfsrStep^[255 - j + i] S = S := by
      have heq2 : lfsrStep^[i] S = lfsrStep^[j] S := heq
      have h255 : lfsrStep^[255 - j] (lfsrStep^[j] S) = S := by
        rw [← Function.iterate_add_apply, show 255 - j + j = 255 by omega]
        exact hbase.1
      rw [← heq2] at h255
      rw [Function.iterate_add_apply]
      exact h255
    exact lfsr_iter_ne S h2 hS0 (255 - j + i) (by omega) (by omega) he
  · unfold outSeq
    rw [show (256 : Nat) = 1 + 255 from rfl, Function.iterate_add_apply,
      hbase.1]

/-- C4 (witness): the amended generator theorem at the firmware
default seed 120. -/
theorem c4_prng_witness : outSeq 120 255 = 120 ∧ outSeq 120 1 ≠ 0 :=
  ⟨(c4_prng 120 (by decide) (by decide)).2.2.2.2.1,
    (c4_prng 120 (by decide) (by decide)).2.2.1 1 (by decide)⟩

/-- C5: the word emitted by the display update is the stated pure
function of the two planes and the sub-frame counter — sub-frames 1
and 3 emit MSB AND LSB, sub-frame 0 emits MSB OR LSB, sub-frame 2
emits the MSB plane — and consequently, for every bit position, the
emitted-bit sequence over sub-frames (3,2,1,0) is (0,0,0,1) for plane
pair (0,1), (0,1,0,1) for (1,0), (1,1,1,1) for (1,1) and (0,0,0,0)
for (0,0). -/
theorem c5_dithering :
    (∀ msb lsb : Nat, emittedWord msb lsb 1 = msb &&& lsb ∧
      emittedWord msb lsb 3 = msb &&& lsb ∧
      emittedWord msb lsb 0 = msb ||| lsb ∧
      emittedWord msb lsb 2 = msb) ∧
    (∀ msb lsb k : Nat,
      [(emittedWord msb lsb 3).testBit k, (emittedWord msb lsb 2).testBit k,
       (emittedWord msb lsb 1).testBit k, (emittedWord msb lsb 0).testBit k] =
      match msb.testBit k, lsb.testBit k with
      | false, true => [false, false, false, true]
      | true, false => [false, true, false, true]
      | true, true => [true, true, true, true]
      | false, false => [false, false, false, false]) := by
  constructor
  · intro msb lsb
    refine ⟨?_, ?_, ?_, ?_⟩ <;> simp [emittedWord]
  · intro msb lsb k
    rcases hm : msb.testBit k <;> rcases hl : lsb.testBit k <;>
      simp [emittedWord, Nat.testBit_and, Nat.testBit_or, hm, hl]

lemma orientCheck_true : orientCheck 0 = true ∧ orientCheck 1 = true := by
  constructor <;> decide

lemma orientCheck_elim (g : Nat) (hg : g < 2) : orientCheck g = true := by
  interval_cases g
  · exact orientCheck_true.1
  · exact orientCheck_true.2

lemma orient_left_inv (g : Nat) (hg : g < 2) :
    ∀ b < 2, ∀ x < 8, ∀ y < 8,
      (orient g x y b).1 < 16 ∧ (orient g x y b).2 < 8 ∧
        orientInv g (orient g x y b) = (b, x, y) := by
  intro b hb x hx y hy
  have h := orientCheck_elim g hg
  unfold orientCheck at h
  rw [Bool.and_eq_true] at h
  have h1 := List.all_eq_true.mp h.1 b (List.mem_range.mpr hb)
  have h2 := List.all_eq_true.mp h1 x (List.mem_range.mpr hx)
  have h3 := List.all_eq_true.mp h2 y (List.mem_range.mpr hy)
  simp only [Bool.and_eq_true, decide_eq_true_eq, beq_iff_eq] at h3
  exact ⟨h3.1.1, h3.1.2, h3.2⟩

lemma orient_right_inv (g : Nat) (hg : g < 2) :
    ∀ px < 16, ∀ py < 8,
      (orientInv g (px, py)).1 < 2 ∧ (orientInv g (px, py)).2.1 < 8 ∧
      (orientInv g (px, py)).2.2 < 8 ∧
      orient g (orientInv g (px, py)).2.1 (orientInv g (px, py)).2.2
        (orientInv g (px, py)).1 = (px, py) := by
  intro px hpx py hpy
  have h := orientCheck_elim g hg
  unfold orientCheck at h
  rw [Bool.and_eq_true] at h
  have h1 := List.all_eq_true.mp h.2 px (List.mem_range.mpr hpx)
  have h2 := List.all_eq_true.mp h1 py (List.mem_range.mpr hpy)
  simp only [Bool.and_eq_true, decide_eq_true_eq, beq_iff_eq] at h2
  exact ⟨h2.1.1.1, h2.1.1.2, h2.1.2, h2.2⟩

lemma fillCheck_true : fillCheck 0 = true ∧ fillCheck 1 = true := by
  constructor <;> decide

lemma fillCheck_elim (g : Nat) (hg : g = 0 ∨ g = 1) :
    ∀ x < 8, ∀ y < 8,
      (get_pixel g (fill_bulb g clearScreen 0) x y 0 ≠ 0 ↔ 3 < x + y) ∧
      get_pixel g (fill_bulb g clearScreen 0) x y 1 = 0 := by
  intro x hx y hy
  have h : fillCheck g = true := by
    rcases hg with h | h <;> subst h
    · exact fillCheck_true.1
    · exact fillCheck_true.2
  unfold fillCheck at h
  have h1 := List.all_eq_true.mp h x (List.mem_range.mpr hx)
  have h2 := List.all_eq_true.mp h1 y (List.mem_range.mpr hy)
  rw [Bool.and_eq_true] at h2
  refine ⟨?_, by simpa using h2.2⟩
  have := h2.1
  rw [beq_iff_eq, decide_eq_decide] at this
  exact this

set_option maxHeartbeats 1000000

/-- C6: for each gravity value, the coordinate map applied by
`set_pixel` and `get_pixel` — flip both axes when gravity is UP, then
shift `x` by 8 when `bulb XOR gravity` is nonzero — is a bijection
from the 2 × 8 × 8 logical grid onto the 16 × 8 physical grid: every
output is in range, distinct logical cells map to distinct physical
cells, and every physical cell is hit. -/
theorem c6_orientation (g : Nat) (hg : g < 2) :
    (∀ p : Fin 2 × Fin 8 × Fin 8,
      (orient g p.2.1 p.2.2 p.1).1 < 16 ∧ (orient g p.2.1 p.2.2 p.1).2 < 8) ∧
    (∀ p q : Fin 2 × Fin 8 × Fin 8,
      orient g p.2.1 p.2.2 p.1 = orient g q.2.1 q.2.2 q.1 → p = q) ∧
    (∀ t : Fin 16 × Fin 8, ∃ p : Fin 2 × Fin 8 × Fin 8,
      orient g p.2.1 p.2.2 p.1 = (t.1.val, t.2.val)) := by
  refine ⟨?_, ?_, ?_⟩
  · intro p
    have h := orient_left_inv g hg p.1 p.1.isLt p.2.1 p.2.1.isLt p.2.2
      p.2.2.isLt
    exact ⟨h.1, h.2.1⟩
  · intro p q heq
    have hp := orient_left_inv g hg p.1 p.1.isLt p.2.1 p.2.1.isLt p.2.2
      p.2.2.isLt
    have hq := orient_left_inv g hg q.1 q.1.isLt q.2.1 q.2.1.isLt q.2.2
      q.2.2.isLt
    have hv : ((p.1 : Nat), (p.2.1 : Nat), (p.2.2 : Nat)) =
        ((q.1 : Nat), (q.2.1 : Nat), (q.2.2 : Nat)) := by
      rw [← hp.2.2, ← hq.2.2, heq]
    obtain ⟨e1, e2, e3⟩ : (p.1 : Nat) = q.1 ∧ (p.2.1 : Nat) = q.2.1 ∧
        (p.2.2 : Nat) = q.2.2 := by
      simpa [Prod.ext_iff] using hv
    exact Prod.ext (Fin.ext e1) (Prod.ext (Fin.ext e2) (Fin.ext e3))
  · intro t
    have h := orient_right_inv g hg t.1 t.1.isLt t.2 t.2.isLt
    exact ⟨(⟨(orientInv g (t.1.val, t.2.val)).1, h.1⟩,
      ⟨(orientInv g (t.1.val, t.2.val)).2.1, h.2.1⟩,
      ⟨(orientInv g (t.1.val, t.2.val)).2.2, h.2.2.1⟩), h.2.2.2⟩

/-- C6 (witness): the orientation transform at gravity DOWN maps the
logical cell (bulb LOWER, 3, 4) into the physical grid. -/
theorem c6_orientation_witness :
    (orient 0 3 4 1).1 < 16 ∧ (orient 0 3 4 1).2 < 8 :=
  (c6_orientation 0 (by decide)).1 (1, 3, 4)

/-- C7: for every in-range coordinate pair and every 4-bit color,
writing a pixel and reading it back returns the same color; for every
out-of-range coordinate pair the write is a no-op that leaves the
whole screen unchanged and the read returns the sentinel 255,
whatever the buffer selector. -/
theorem c7_framebuffer (scr : Screen) (x y c sel : Nat) :
    (x < 16 → y < 8 → c < 16 →
      dmGetPixel (dmSetPixel scr x y c) x y 0 = c) ∧
    (16 ≤ x ∨ 8 ≤ y →
      dmSetPixel scr x y c = scr ∧ dmGetPixel scr x y sel = 255) :=
  ⟨fun hx hy hc => dmGet_dmSet_same scr x y c hx hy hc,
    fun h => ⟨dmSetPixel_out scr x y c h, dmGetPixel_out scr x y sel h⟩⟩

/-- C7 (witness): the round trip at (3,4) with color 9, and the
out-of-range contract at column 16. -/
theorem c7_framebuffer_witness :
    dmGetPixel (dmSetPixel clearScreen 3 4 9) 3 4 0 = 9 ∧
    (dmSetPixel clearScreen 16 0 5 = clearScreen ∧
      dmGetPixel clearScreen 16 0 0 = 255) :=
  ⟨(c7_framebuffer clearScreen 3 4 9 0).1 (by decide) (by decide) (by decide),
    (c7_framebuffer clearScreen 16 0 5 0).2 (Or.inl (by decide))⟩

/-- C8 (counterexample): after `swapScreen` the physical buffer that
write operations target is not the same buffer as before: starting
with distinct visible and hidden buffers and the working pointer on
the visible one, the swap moves the working pointer to the other
physical buffer (it tracks the visible role, not the buffer). -/
theorem c8_counterexample :
    (swapScreen ⟨fun _ => clearScreen, false, true, false⟩).wrk = true ∧
    (⟨fun _ => clearScreen, false, true, false⟩ : DMBufState).wrk = false :=
  ⟨rfl, rfl⟩

/-- C8 (amended): `swapScreen` exchanges the visible and hidden roles
of the two physical buffers without copying pixel data, and the
working pointer keeps its logical role: if it pointed at the hidden
buffer it now points at the new hidden buffer (the other physical
buffer when the two differ), and likewise for visible. -/
theorem c8_swap_roles (s : DMBufState) :
    (swapScreen s).bufs = s.bufs ∧ (swapScreen s).vis = s.hid ∧
    (swapScreen s).hid = s.vis ∧
    (swapScreen s).wrk = (if s.wrk = s.hid then s.vis else s.hid) :=
  ⟨rfl, rfl, rfl, rfl⟩

/-- C9: starting from the initialized state — `fill_bulb` colors
exactly the 54 upper-bulb cells with `x + y > 3`, the lower bulb
empty, for a total of 54 grains on screen — every simulation action
(a timed `drop` or a `simulate_grain` call as issued by `main`) never
increases the number of non-black pixels, and any sequence of such
actions leaves at most 54 grains on screen. -/
theorem c9_conservation (g : Nat) (hg : g = 0 ∨ g = 1) :
    grainCount (fill_bulb g clearScreen 0) = 54 ∧
    (∀ p : Fin 8 × Fin 8,
      (get_pixel g (fill_bulb g clearScreen 0) p.1 p.2 0 ≠ 0 ↔
        3 < p.1.val + p.2.val) ∧
      get_pixel g (fill_bulb g clearScreen 0) p.1 p.2 1 = 0) ∧
    (∀ (s : SimState) (a : SandAct),
      grainCount (sandTick g s a).scr ≤ grainCount s.scr) ∧
    (∀ (acts : List SandAct) (side0 cnt0 : Nat),
      grainCount ((acts.foldl (sandTick g)
        ⟨fill_bulb g clearScreen 0, side0, cnt0⟩).scr) ≤ 54) := by
  have h54 : grainCount (fill_bulb g clearScreen 0) = 54 := by
    rcases hg with h | h <;> subst h <;> decide
  refine ⟨h54, ?_, ?_, ?_⟩
  · intro p
    exact fillCheck_elim g hg p.1 p.1.isLt p.2 p.2.isLt
  · intro s a
    cases a with
    | dropA => exact (grainCount_drop g s.scr).le
    | simA r => exact (grainCount_sim g s _ _ _).le
  · intro acts side0 cnt0
    rw [grainCount_sandTicks]
    dsimp only
    rw [h54]

/-- C9 (witness): at gravity DOWN the initialized screen holds exactly
54 grains. -/
theorem c9_conservation_witness :
    grainCount (fill_bulb 0 clearScreen 0) = 54 :=
  (c9_conservation 0 (Or.inl rfl)).1

/-- C10: a `getPixel` call with a buffer selector other than
`VISIBLE = 0` or `HIDDEN = 1` returns the sentinel 255 — the same
value returned for out-of-range coordinates — for every coordinate
pair, making an invalid selector indistinguishable from an
out-of-range read; the read touches no state. -/
theorem c10_invalid_selector (scr : Screen) (x y sel : Nat)
    (h0 : sel ≠ 0) (h1 : sel ≠ 1) :
    dmGetPixel scr x y sel = 255 ∧ dmGetPixel scr 16 8 0 = 255 :=
  ⟨by
    by_cases hx : 16 ≤ x
    · exact dmGetPixel_out scr x y sel (Or.inl hx)
    · by_cases hy : 8 ≤ y
      · exact dmGetPixel_out scr x y sel (Or.inr hy)
      · exact dmGetPixel_badsel scr x y sel h0 h1,
    dmGetPixel_out scr 16 8 0 (Or.inl (by omega))⟩

/-- C10 (witness): an invalid selector read at (0,0) with selector 2
returns the sentinel. -/
theorem c10_invalid_selector_witness :
    dmGetPixel clearScreen 0 0 2 = 255 ∧ dmGetPixel clearScreen 16 8 0 = 255 :=
  c10_invalid_selector clearScreen 0 0 2 (by decide) (by decide)
